import Mathlib

set_option maxHeartbeats 1000000

/-!
Verification of the tic-tac-toe engine in `bot/exts/fun/tic_tac_toe.py`.

The board is a `dict[int, str]` with keys 1..9 whose values are one of three
emoji strings (the empty placeholder, the X square, the O square); it is
modelled as a total function `Nat → Mark`.
-/

/-- A cell mark: the empty placeholder emoji, the X emoji, or the O emoji. -/
inductive Mark where
  | Empty
  | X
  | O
deriving DecidableEq, Repr

/-- The board `dict[int, str]` (keys 1..9), modelled as a total function. -/
def Board : Type := Nat → Mark

/-- The mutation `board[pos] = symbol` (used on a copy by the AI and on the
shared board by `Game.play`). -/
def setCell (board : Board) (pos : Nat) (m : Mark) : Board :=
  fun q => if q = pos then m else board q

/-- The 8 fixed winning triples of `check_win`, in the source's scan order:
horizontal rows, vertical columns, then the two diagonals. -/
def winning_combinations : List (Nat × Nat × Nat) :=
  [(1, 2, 3), (4, 5, 6), (7, 8, 9),
   (1, 4, 7), (2, 5, 8), (3, 6, 9),
   (1, 5, 9), (3, 5, 7)]

/-- The loop condition of `check_win`:
`board[a] == board[b] == board[c] and board[a] in (Emojis.x_square, Emojis.o_square)`. -/
def winCond (board : Board) (t : Nat × Nat × Nat) : Bool :=
  (decide (board t.1 = board t.2.1) && decide (board t.2.1 = board t.2.2)) &&
    (decide (board t.1 = Mark.X) || decide (board t.1 = Mark.O))

/-- The `for a, b, c in winning_combinations` loop body of `check_win`. -/
def check_win_loop (board : Board) :
    List (Nat × Nat × Nat) → Bool × Option (Nat × Nat × Nat)
  | [] => (false, none)
  | t :: rest => if winCond board t then (true, some t) else check_win_loop board rest

/-- `check_win(board)`: first winning triple in scan order, if any. -/
def check_win (board : Board) : Bool × Option (Nat × Nat × Nat) :=
  check_win_loop board winning_combinations

/-- Spec-side predicate: the triple holds three equal non-empty marks. -/
def lineWon (board : Board) (t : Nat × Nat × Nat) : Prop :=
  board t.1 = board t.2.1 ∧ board t.2.1 = board t.2.2 ∧ board t.1 ≠ Mark.Empty

instance (board : Board) (t : Nat × Nat × Nat) : Decidable (lineWon board t) := by
  unfold lineWon; infer_instance

theorem winCond_iff (board : Board) (t : Nat × Nat × Nat) :
    winCond board t = true ↔ lineWon board t := by
  unfold winCond lineWon
  cases h : board t.1 <;> simp [h]

theorem check_win_loop_snd (board : Board) :
    ∀ l : List (Nat × Nat × Nat),
      (check_win_loop board l).2 = l.find? (fun t => decide (lineWon board t))
  | [] => rfl
  | t :: rest => by
    by_cases h : lineWon board t
    · have hw : winCond board t = true := (winCond_iff board t).mpr h
      simp [check_win_loop, List.find?, hw, h]
    · have hw : winCond board t = false := by
        cases hc : winCond board t
        · rfl
        · exact absurd ((winCond_iff board t).mp hc) h
      simp [check_win_loop, List.find?, hw, h, check_win_loop_snd board rest]

theorem check_win_loop_fst (board : Board) :
    ∀ l : List (Nat × Nat × Nat),
      ((check_win_loop board l).1 = true ↔ ∃ t ∈ l, lineWon board t)
  | [] => by simp [check_win_loop]
  | t :: rest => by
    by_cases h : lineWon board t
    · have hw : winCond board t = true := (winCond_iff board t).mpr h
      simp [check_win_loop, hw, h]
    · have hw : winCond board t = false := by
        cases hc : winCond board t
        · rfl
        · exact absurd ((winCond_iff board t).mp hc) h
      simp [check_win_loop, hw, h, check_win_loop_fst board rest]

/-- C1: `check_win` reports a win iff some row, column or diagonal holds three
equal non-empty marks, and the reported triple is the first match in the fixed
scan order (rows top-to-bottom, then columns left-to-right, then the two
diagonals) — exactly the first element of `winning_combinations` whose cells
all carry the same non-empty mark. -/
theorem check_win_correct (board : Board) :
    ((check_win board).1 = true ↔ ∃ t ∈ winning_combinations, lineWon board t) ∧
    (check_win board).2 = winning_combinations.find? (fun t => decide (lineWon board t)) :=
  ⟨check_win_loop_fst board winning_combinations, check_win_loop_snd board winning_combinations⟩

/-- A board where both the first and the second row are all X: the scan-order
tie-break reports the first row. -/
def bTwoRows : Board := fun p => if 1 ≤ p ∧ p ≤ 6 then Mark.X else Mark.Empty

/-- Witness for C1 at a board with two simultaneous winning rows. -/
theorem check_win_correct_witness :
    (((check_win bTwoRows).1 = true ↔ ∃ t ∈ winning_combinations, lineWon bTwoRows t) ∧
      (check_win bTwoRows).2 =
        winning_combinations.find? (fun t => decide (lineWon bTwoRows t))) :=
  check_win_correct bTwoRows

example : check_win bTwoRows = (true, some (1, 2, 3)) := by decide

/-- Spec §8 example: X at 1, 2, 3, O at 5, 8 → `(true, (1, 2, 3))`. -/
example :
    check_win (setCell (setCell (setCell (setCell (setCell
      (fun _ => Mark.Empty) 1 Mark.X) 5 Mark.O) 2 Mark.X) 8 Mark.O) 3 Mark.X) =
      (true, some (1, 2, 3)) := by decide

example : check_win (fun _ => Mark.Empty) = (false, none) := by decide

/-! ## The AI move (`AI.get_move`) -/

/-- `possible_moves = [i for i, emoji in board.items() if emoji not in (o, x)]`:
the keys 1..9 in dict insertion order whose cell holds neither O nor X. -/
def possibleMoves (board : Board) : List Nat :=
  (List.range' 1 9).filter
    (fun i => !(decide (board i = Mark.O) || decide (board i = Mark.X)))

/-- `random.choice(seq)`: an element of the list when it is non-empty (the
seed picks which one), and `none` — the `IndexError` that `random.choice`
raises — on an empty list. -/
def randomChoice (seed : Nat) (l : List Nat) : Option Nat :=
  if h : l.length = 0 then none
  else some (l.get ⟨seed % l.length, Nat.mod_lt seed (Nat.pos_of_ne_zero h)⟩)

/-- The nested loops `for symbol in (o_square, x_square): for move in
possible_moves: ...`: the first move whose O-placement wins, else the first
move whose X-placement wins — the O pass always runs first, whichever mark
the AI controls. -/
def winMoveSearch (board : Board) (moves : List Nat) : Option Nat :=
  match moves.find? (fun m => (check_win (setCell board m Mark.O)).1) with
  | some m => some m
  | none => moves.find? (fun m => (check_win (setCell board m Mark.X)).1)

/-- `open_corners = [i for i in possible_moves if i in (1, 3, 7, 9)]`. -/
def openCorners (board : Board) : List Nat :=
  (possibleMoves board).filter (fun i => decide (i ∈ [1, 3, 7, 9]))

/-- `open_edges = [i for i in possible_moves if i in (2, 4, 6, 8)]`. -/
def openEdges (board : Board) : List Nat :=
  (possibleMoves board).filter (fun i => decide (i ∈ [2, 4, 6, 8]))

/-- `AI.get_move(board)`: the boolean is the "timed out" flag of the returned
tuple (always `False` here); `none` models the `IndexError` that
`random.choice` would raise on an empty candidate list. -/
def aiGetMove (seed : Nat) (board : Board) : Option (Bool × Nat) :=
  match winMoveSearch board (possibleMoves board) with
  | some m => some (false, m)
  | none =>
    if 0 < (openCorners board).length then
      (randomChoice seed (openCorners board)).map (fun m => (false, m))
    else if 5 ∈ possibleMoves board then some (false, 5)
    else (randomChoice seed (openEdges board)).map (fun m => (false, m))

theorem mem_possibleMoves (board : Board) (p : Nat) :
    p ∈ possibleMoves board ↔ (1 ≤ p ∧ p ≤ 9) ∧ board p = Mark.Empty := by
  unfold possibleMoves
  rw [List.mem_filter, List.mem_range'_1]
  constructor
  · rintro ⟨⟨h1, h2⟩, hb⟩
    refine ⟨⟨h1, by omega⟩, ?_⟩
    cases h : board p <;> simp [h] at hb ⊢
  · rintro ⟨⟨h1, h2⟩, hb⟩
    exact ⟨⟨h1, by omega⟩, by simp [hb]⟩

theorem randomChoice_mem (seed : Nat) (l : List Nat) (h : l ≠ []) :
    ∃ x ∈ l, randomChoice seed l = some x := by
  unfold randomChoice
  rw [dif_neg (fun hl => h (List.length_eq_zero.mp hl))]
  exact ⟨_, List.get_mem _ _ _, rfl⟩

theorem winMoveSearch_mem (board : Board) (moves : List Nat) (m : Nat)
    (hw : winMoveSearch board moves = some m) : m ∈ moves := by
  unfold winMoveSearch at hw
  cases hf : moves.find? (fun m => (check_win (setCell board m Mark.O)).1) with
  | some m0 =>
    rw [hf] at hw
    cases hw
    exact List.mem_of_find?_eq_some hf
  | none =>
    rw [hf] at hw
    exact List.mem_of_find?_eq_some hw

theorem aiGetMove_win (seed : Nat) (board : Board) (m : Nat)
    (hw : winMoveSearch board (possibleMoves board) = some m) :
    aiGetMove seed board = some (false, m) := by
  unfold aiGetMove
  rw [hw]

theorem aiGetMove_noWin (seed : Nat) (board : Board)
    (hw : winMoveSearch board (possibleMoves board) = none) :
    aiGetMove seed board =
      if 0 < (openCorners board).length then
        (randomChoice seed (openCorners board)).map (fun m => (false, m))
      else if 5 ∈ possibleMoves board then some (false, 5)
      else (randomChoice seed (openEdges board)).map (fun m => (false, m)) := by
  unfold aiGetMove
  rw [hw]

/-- C5: on any board with at least one empty cell among positions 1..9,
`AI.get_move` returns `(False, m)` — the timed-out flag is never set — with
`m` a currently empty position. -/
theorem ai_move_empty_cell (seed : Nat) (board : Board)
    (h : ∃ p, 1 ≤ p ∧ p ≤ 9 ∧ board p = Mark.Empty) :
    ∃ m, aiGetMove seed board = some (false, m) ∧ board m = Mark.Empty := by
  obtain ⟨p, hp1, hp9, hpe⟩ := h
  have hpm : p ∈ possibleMoves board := (mem_possibleMoves board p).mpr ⟨⟨hp1, hp9⟩, hpe⟩
  cases hw : winMoveSearch board (possibleMoves board) with
  | some m =>
    exact ⟨m, aiGetMove_win seed board m hw,
      ((mem_possibleMoves board m).mp (winMoveSearch_mem board _ m hw)).2⟩
  | none =>
    rw [aiGetMove_noWin seed board hw]
    by_cases hc : 0 < (openCorners board).length
    · rw [if_pos hc]
      have hcne : openCorners board ≠ [] := by
        intro hnil
        rw [hnil] at hc
        simp at hc
      obtain ⟨x, hx, hrc⟩ := randomChoice_mem seed _ hcne
      have hxm : x ∈ possibleMoves board := (List.mem_filter.mp hx).1
      exact ⟨x, by rw [hrc]; rfl, ((mem_possibleMoves board x).mp hxm).2⟩
    · rw [if_neg hc]
      by_cases h5 : 5 ∈ possibleMoves board
      · rw [if_pos h5]
        exact ⟨5, rfl, ((mem_possibleMoves board 5).mp h5).2⟩
      · rw [if_neg h5]
        have hcor : openCorners board = [] :=
          List.length_eq_zero.mp (Nat.eq_zero_of_not_pos hc)
        have hnotc : ¬p ∈ ([1, 3, 7, 9] : List Nat) := by
          intro hmem
          have hpc : p ∈ openCorners board :=
            List.mem_filter.mpr ⟨hpm, by simpa using hmem⟩
          simp [hcor] at hpc
        have hne5 : p ≠ 5 := fun h5' => h5 (h5' ▸ hpm)
        have hpedge : p ∈ openEdges board := by
          refine List.mem_filter.mpr ⟨hpm, ?_⟩
          simp only [decide_eq_true_eq]
          simp only [List.mem_cons, List.not_mem_nil, or_false] at hnotc ⊢
          omega
        have hene : openEdges board ≠ [] := fun hnil => by
          rw [hnil] at hpedge
          simp at hpedge
        obtain ⟨x, hx, hrc⟩ := randomChoice_mem seed _ hene
        have hxm : x ∈ possibleMoves board := (List.mem_filter.mp hx).1
        exact ⟨x, by rw [hrc]; rfl, ((mem_possibleMoves board x).mp hxm).2⟩

/-- Witness for C5: the AI run on the empty board picks an empty cell. -/
theorem ai_move_empty_cell_witness :
    ∃ m, aiGetMove 0 (fun _ => Mark.Empty) = some (false, m) ∧
      (fun _ => Mark.Empty : Board) m = Mark.Empty :=
  ai_move_empty_cell 0 (fun _ => Mark.Empty) ⟨1, by decide, by decide, rfl⟩

theorem setCell_same (board : Board) (pos : Nat) (m : Mark) :
    setCell board pos m pos = m := by
  simp [setCell]

theorem setCell_other (board : Board) (pos : Nat) (m : Mark) (q : Nat) (h : q ≠ pos) :
    setCell board pos m q = board q := by
  simp [setCell, h]

/-- Some triple holds two O marks and an empty third cell. -/
def twoOThreat (board : Board) (t : Nat × Nat × Nat) : Prop :=
  (board t.1 = Mark.Empty ∧ board t.2.1 = Mark.O ∧ board t.2.2 = Mark.O) ∨
  (board t.1 = Mark.O ∧ board t.2.1 = Mark.Empty ∧ board t.2.2 = Mark.O) ∨
  (board t.1 = Mark.O ∧ board t.2.1 = Mark.O ∧ board t.2.2 = Mark.Empty)

instance (board : Board) (t : Nat × Nat × Nat) : Decidable (twoOThreat board t) := by
  unfold twoOThreat; infer_instance

/-- A board on which an AI holding the X mark has X at 1 and 2 (its own win
open at 3) while the opponent O stands at 4 and 5 (an O completion open at 6). -/
def bBothThreats : Board := fun p =>
  if p = 1 ∨ p = 2 then Mark.X
  else if p = 4 ∨ p = 5 then Mark.O
  else Mark.Empty

/-- C4 counterexample: with the AI controlling X, two own marks at 1 and 2 and
the third cell 3 empty, `AI.get_move` returns 6 — the move completing the
opponent's O line — so the AI's move does not complete its own winning line:
the O pass runs before the X pass whichever mark the AI controls. -/
theorem ai_self_win_counterexample :
    aiGetMove 0 bBothThreats = some (false, 6) ∧
    (check_win (setCell bBothThreats 6 Mark.X)).1 = false ∧
    (check_win (setCell bBothThreats 3 Mark.X)).1 = true := by
  decide

/-- C4 (amended): the move search tries O completions before X completions
regardless of the AI's mark, and every session created by the cog hands the AI
the O mark; for the mark the AI actually controls the claim holds: whenever
some triple holds two O marks and an empty third cell, the returned move is an
empty position whose O-placement completes a winning line. -/
theorem ai_takes_win_as_O (seed : Nat) (board : Board)
    (h : ∃ t ∈ winning_combinations, twoOThreat board t) :
    ∃ m, aiGetMove seed board = some (false, m) ∧ board m = Mark.Empty ∧
      (check_win (setCell board m Mark.O)).1 = true := by
  obtain ⟨t, ht, hthreat⟩ := h
  have hbounds : ∀ t' ∈ winning_combinations,
      1 ≤ t'.1 ∧ t'.1 ≤ 9 ∧ 1 ≤ t'.2.1 ∧ t'.2.1 ≤ 9 ∧ 1 ≤ t'.2.2 ∧ t'.2.2 ≤ 9 := by
    decide
  obtain ⟨hb1, hb2, hb3, hb4, hb5, hb6⟩ := hbounds t ht
  have key : ∃ e, board e = Mark.Empty ∧ 1 ≤ e ∧ e ≤ 9 ∧
      lineWon (setCell board e Mark.O) t := by
    rcases hthreat with ⟨h1, h2, h3⟩ | ⟨h1, h2, h3⟩ | ⟨h1, h2, h3⟩
    · have hne2 : t.2.1 ≠ t.1 := fun he => by simp [he, h1] at h2
      have hne3 : t.2.2 ≠ t.1 := fun he => by simp [he, h1] at h3
      exact ⟨t.1, h1, hb1, hb2, by
        unfold lineWon
        rw [setCell_same, setCell_other board _ _ _ hne2, setCell_other board _ _ _ hne3,
          h2, h3]
        simp⟩
    · have hne1 : t.1 ≠ t.2.1 := fun he => by simp [he, h2] at h1
      have hne3 : t.2.2 ≠ t.2.1 := fun he => by simp [he, h2] at h3
      exact ⟨t.2.1, h2, hb3, hb4, by
        unfold lineWon
        rw [setCell_same, setCell_other board _ _ _ hne1, setCell_other board _ _ _ hne3,
          h1, h3]
        simp⟩
    · have hne1 : t.1 ≠ t.2.2 := fun he => by simp [he, h3] at h1
      have hne2 : t.2.1 ≠ t.2.2 := fun he => by simp [he, h3] at h2
      exact ⟨t.2.2, h3, hb5, hb6, by
        unfold lineWon
        rw [setCell_same, setCell_other board _ _ _ hne1, setCell_other board _ _ _ hne2,
          h1, h2]
        simp⟩
  obtain ⟨e, hee, he1, he9, hlw⟩ := key
  have hem : e ∈ possibleMoves board := (mem_possibleMoves board e).mpr ⟨⟨he1, he9⟩, hee⟩
  have hpred : (check_win (setCell board e Mark.O)).1 = true :=
    (check_win_loop_fst (setCell board e Mark.O) winning_combinations).mpr ⟨t, ht, hlw⟩
  have hsome :
      ((possibleMoves board).find? (fun m => (check_win (setCell board m Mark.O)).1)).isSome
        = true :=
    List.find?_isSome.mpr ⟨e, hem, hpred⟩
  obtain ⟨m, hf⟩ := Option.isSome_iff_exists.mp hsome
  have hwms : winMoveSearch board (possibleMoves board) = some m := by
    unfold winMoveSearch
    rw [hf]
  have hmp := List.find?_some (p := fun q => (check_win (setCell board q Mark.O)).1) hf
  simp only at hmp
  exact ⟨m, aiGetMove_win seed board m hwms,
    ((mem_possibleMoves board m).mp (List.mem_of_find?_eq_some hf)).2, hmp⟩

/-- A board with O at 4 and 5 and the rest empty: the O completion at 6 is open. -/
def bORow : Board := fun p => if p = 4 ∨ p = 5 then Mark.O else Mark.Empty

/-- Witness for the amended C4 at a concrete two-O board. -/
theorem ai_takes_win_as_O_witness :
    ∃ m, aiGetMove 0 bORow = some (false, m) ∧ bORow m = Mark.Empty ∧
      (check_win (setCell bORow m Mark.O)).1 = true :=
  ai_takes_win_as_O 0 bORow ⟨(4, 5, 6), by decide, by decide⟩

example : aiGetMove 0 bORow = some (false, 6) := by decide

/-- C10: when no single move completes a line for either mark, no corner is
empty and the center is occupied, any remaining empty cell must be an edge, so
the final `random.choice` runs on a non-empty list and `AI.get_move` never
fails. -/
theorem ai_edge_choice_nonempty (seed : Nat) (board : Board)
    (h0 : winMoveSearch board (possibleMoves board) = none)
    (h1 : ∃ p, 1 ≤ p ∧ p ≤ 9 ∧ board p = Mark.Empty)
    (h2 : ∀ c ∈ ([1, 3, 7, 9] : List Nat), board c ≠ Mark.Empty)
    (h3 : board 5 ≠ Mark.Empty) :
    openEdges board ≠ [] ∧ (aiGetMove seed board).isSome = true := by
  obtain ⟨p, hp1, hp9, hpe⟩ := h1
  have hpm : p ∈ possibleMoves board := (mem_possibleMoves board p).mpr ⟨⟨hp1, hp9⟩, hpe⟩
  have hnotc : ¬p ∈ ([1, 3, 7, 9] : List Nat) := fun hmem => h2 p hmem hpe
  have hne5 : p ≠ 5 := fun h5 => h3 (h5 ▸ hpe)
  have hpedge : p ∈ openEdges board := by
    refine List.mem_filter.mpr ⟨hpm, ?_⟩
    simp only [decide_eq_true_eq]
    simp only [List.mem_cons, List.not_mem_nil, or_false] at hnotc ⊢
    omega
  have hene : openEdges board ≠ [] := fun hnil => by
    rw [hnil] at hpedge
    simp at hpedge
  refine ⟨hene, ?_⟩
  rw [aiGetMove_noWin seed board h0]
  have hcor : openCorners board = [] := by
    rw [openCorners, List.filter_eq_nil_iff]
    intro a ha
    simp only [decide_eq_true_eq]
    intro hmem
    exact h2 a hmem ((mem_possibleMoves board a).mp ha).2
  rw [hcor]
  have h5pm : ¬5 ∈ possibleMoves board := fun hm =>
    h3 ((mem_possibleMoves board 5).mp hm).2
  rw [if_neg (by simp), if_neg h5pm]
  obtain ⟨x, _, hrc⟩ := randomChoice_mem seed _ hene
  rw [hrc]
  rfl

/-- All corners and the center occupied without any one-move completion for
either mark; the edges 2 and 8 stay empty. -/
def bEdgeOnly : Board := fun p =>
  if p = 1 ∨ p = 5 ∨ p = 6 ∨ p = 7 then Mark.X
  else if p = 3 ∨ p = 4 ∨ p = 9 then Mark.O
  else Mark.Empty

/-- Witness for C10 at a concrete corners-and-center-occupied board. -/
theorem ai_edge_choice_nonempty_witness :
    (aiGetMove 0 bEdgeOnly).isSome = true :=
  (ai_edge_choice_nonempty 0 bEdgeOnly (by decide)
    ⟨2, by decide, by decide, by decide⟩ (by decide) (by decide)).2

example : openEdges bEdgeOnly = [2, 8] := by decide

/-! ## The human move wait (`Player.get_move`) -/

/-- A component interaction on the board message that passes `check_for_move`
(whose user-identity comparison is commented out, so any sender gets through
the filter). -/
structure Interaction where
  time : Nat
  userId : Nat
  pos : Nat
deriving DecidableEq, Repr

/-- Outcome of `Player.get_move`: `(True, None, None)` at a timeout, or the
position parsed from the pressed button's custom id. -/
inductive MoveOutcome where
  | timedOut (t : Nat)
  | moved (t : Nat) (pos : Nat)
deriving DecidableEq, Repr

/-- The `while True` wait of `Player.get_move`, over the time-ordered incoming
interactions. `wait_for(timeout=TIMEOUT)` is re-entered — with a fresh
60-second timeout — after every interaction whose sender is not the polled
user; an interaction is consumed iff it arrives before the current deadline.
Returns the outcome together with the list of interactions answered with the
"not your turn" rejection, one rejection per mismatched interaction. -/
def getMoveFrom (selfId : Nat) : Nat → List Interaction → MoveOutcome × List Interaction
  | t0, [] => (.timedOut (t0 + 60), [])
  | t0, e :: rest =>
    if e.time < t0 + 60 then
      if e.userId = selfId then (.moved e.time e.pos, [])
      else
        let r := getMoveFrom selfId e.time rest
        (r.1, e :: r.2)
    else (.timedOut (t0 + 60), [])

theorem getMoveFrom_cons_late (selfId t0 : Nat) (e : Interaction)
    (rest : List Interaction) (h : ¬e.time < t0 + 60) :
    getMoveFrom selfId t0 (e :: rest) = (.timedOut (t0 + 60), []) := by
  unfold getMoveFrom
  rw [if_neg h]

theorem getMoveFrom_cons_match (selfId t0 : Nat) (e : Interaction)
    (rest : List Interaction) (h1 : e.time < t0 + 60) (h2 : e.userId = selfId) :
    getMoveFrom selfId t0 (e :: rest) = (.moved e.time e.pos, []) := by
  unfold getMoveFrom
  rw [if_pos h1, if_pos h2]

theorem getMoveFrom_cons_reject (selfId t0 : Nat) (e : Interaction)
    (rest : List Interaction) (h1 : e.time < t0 + 60) (h2 : ¬e.userId = selfId) :
    getMoveFrom selfId t0 (e :: rest) =
      ((getMoveFrom selfId e.time rest).1, e :: (getMoveFrom selfId e.time rest).2) := by
  conv_lhs => unfold getMoveFrom
  rw [if_pos h1, if_neg h2]

/-- C3 counterexample: a single mismatched-sender interaction at time 50
resets the deadline — with no valid event from the correct participant ever
arriving, the wait times out at 110, not 60 seconds after the call began. -/
theorem getMove_deadline_counterexample :
    (getMoveFrom 1 0 [⟨50, 2, 3⟩]).1 = MoveOutcome.timedOut 110 ∧
    (getMoveFrom 1 0 [⟨50, 2, 3⟩]).1 ≠ MoveOutcome.timedOut 60 ∧
    (getMoveFrom 1 0 [⟨50, 2, 3⟩]).2 = [⟨50, 2, 3⟩] := by
  decide

/-- C3 (amended): every interaction from a different participant produces
exactly one "not your turn" rejection (the rejected interactions are exactly
the processed prefix of the incoming list, in order), but each such
interaction re-enters `wait_for` with a fresh 60-second timeout: a timeout
fires 60 seconds after the most recent rejected interaction (or 60 seconds
after the call began when there was none), and a move is returned only for an
interaction of the polled participant. -/
theorem getMove_rejections_and_deadline (selfId t0 : Nat) (events : List Interaction) :
    (∀ e ∈ (getMoveFrom selfId t0 events).2, e.userId ≠ selfId) ∧
    (∃ rest, events = (getMoveFrom selfId t0 events).2 ++ rest) ∧
    (∀ T, (getMoveFrom selfId t0 events).1 = MoveOutcome.timedOut T →
      T = ((getMoveFrom selfId t0 events).2.getLast?.elim t0 Interaction.time) + 60) ∧
    (∀ t p, (getMoveFrom selfId t0 events).1 = MoveOutcome.moved t p →
      ∃ e ∈ events, e.userId = selfId ∧ e.time = t ∧ e.pos = p) := by
  induction events generalizing t0 with
  | nil =>
    refine ⟨by simp [getMoveFrom], ⟨[], by simp [getMoveFrom]⟩, ?_, ?_⟩
    · intro T hT
      simp only [getMoveFrom, MoveOutcome.timedOut.injEq] at hT
      simp [getMoveFrom, hT]
    · intro t p h
      simp [getMoveFrom] at h
  | cons e rest ih =>
    by_cases htime : e.time < t0 + 60
    · by_cases huser : e.userId = selfId
      · rw [getMoveFrom_cons_match selfId t0 e rest htime huser]
        refine ⟨by simp, ⟨e :: rest, by simp⟩, by simp, ?_⟩
        intro t p h
        simp only [MoveOutcome.moved.injEq] at h
        exact ⟨e, List.mem_cons_self e rest, huser, h.1, h.2⟩
      · rw [getMoveFrom_cons_reject selfId t0 e rest htime huser]
        obtain ⟨ih1, ⟨rest', ihpre⟩, ih3, ih4⟩ := ih e.time
        refine ⟨?_, ⟨rest', ?_⟩, ?_, ?_⟩
        · intro f hf
          rcases List.mem_cons.mp hf with hfe | hfr
          · rw [hfe]; exact huser
          · exact ih1 f hfr
        · rw [List.cons_append, ← ihpre]
        · intro T hT
          rw [ih3 T hT]
          show _ =
            ((e :: (getMoveFrom selfId e.time rest).2).getLast?.elim t0 Interaction.time) + 60
          congr 1
          cases hg : (getMoveFrom selfId e.time rest).2 with
          | nil => simp
          | cons a l =>
            rw [List.getLast?_cons_cons]
            cases hgl : (a :: l).getLast? with
            | none => exact absurd (List.getLast?_eq_none_iff.mp hgl) (List.cons_ne_nil a l)
            | some b => rfl
        · intro t p h
          obtain ⟨f, hf, hprops⟩ := ih4 t p h
          exact ⟨f, List.mem_cons_of_mem e hf, hprops⟩
    · rw [getMoveFrom_cons_late selfId t0 e rest htime]
      refine ⟨by simp, ⟨e :: rest, by simp⟩, ?_, by simp⟩
      intro T hT
      simp only [MoveOutcome.timedOut.injEq] at hT
      simp [hT]

/-- Witness for the amended C3: with a mismatched interaction at time 10 and a
matching one at time 20, the theorem yields the matching interaction. -/
theorem getMove_rejections_and_deadline_witness :
    ∃ e ∈ ([⟨10, 2, 4⟩, ⟨20, 1, 5⟩] : List Interaction),
      e.userId = 1 ∧ e.time = 20 ∧ e.pos = 5 :=
  (getMove_rejections_and_deadline 1 0 [⟨10, 2, 4⟩, ⟨20, 1, 5⟩]).2.2.2 20 5 (by decide)

example : getMoveFrom 1 0 [⟨10, 2, 4⟩, ⟨20, 1, 5⟩] =
    (MoveOutcome.moved 20 5, [⟨10, 2, 4⟩]) := by decide

/-! ## The game session (`Game.play`) -/

/-- The state of a `Game`: the board, the bound channel, the player user ids,
the `current`/`next` symbols, and the outcome fields. -/
structure GameState where
  board : Board
  channel : Nat
  players : List Nat
  current : Mark
  next : Mark
  winner : Option Mark
  loser : Option Mark
  draw : Bool
  over : Bool
  canceled : Bool

/-- A fresh `Game`: empty board, the requester holds X and moves first, the
opponent holds O. -/
def initGame (ch : Nat) (players : List Nat) : GameState :=
  { board := fun _ => Mark.Empty
    channel := ch
    players := players
    current := Mark.X
    next := Mark.O
    winner := none
    loser := none
    draw := false
    over := false
    canceled := false }

/-- The `for _ in range(len(self.board))` turn loop of `Game.play`, driven by
the scripted results of the `get_move` calls (`none` models a timeout, which
cancels the game). The board cell is written unconditionally; `check_win`
then decides a win (winner and loser set, game over), otherwise `current` and
`next` swap; when the loop exhausts its 9 iterations with no winner the game
is a draw; `over` ends up true on every path. -/
def playLoop : Nat → List (Option Nat) → GameState → GameState
  | 0, _, s =>
    if s.winner.isNone then { s with draw := true, over := true }
    else { s with over := true }
  | _ + 1, [], s => { s with over := true, canceled := true }
  | _ + 1, none :: _, s => { s with over := true, canceled := true }
  | fuel + 1, some pos :: moves, s =>
    let board := setCell s.board pos s.current
    if (check_win board).1 then
      { s with board := board, winner := some s.current, loser := some s.next, over := true }
    else
      playLoop fuel moves { s with board := board, current := s.next, next := s.current }

/-- `Game.play` over a full scripted game from the fresh state. -/
def play (ch : Nat) (players : List Nat) (moves : List (Option Nat)) : GameState :=
  playLoop 9 moves (initGame ch players)

theorem playLoop_cons_some (fuel : Nat) (pos : Nat) (moves : List (Option Nat))
    (s : GameState) :
    playLoop (fuel + 1) (some pos :: moves) s =
      if (check_win (setCell s.board pos s.current)).1 then
        { s with board := setCell s.board pos s.current,
                 winner := some s.current, loser := some s.next, over := true }
      else
        playLoop fuel moves
          { s with board := setCell s.board pos s.current,
                   current := s.next, next := s.current } := by
  rfl

theorem playLoop_over : ∀ (fuel : Nat) (moves : List (Option Nat)) (s : GameState),
    (playLoop fuel moves s).over = true
  | 0, _, s => by
    unfold playLoop
    split <;> rfl
  | _ + 1, [], _ => rfl
  | _ + 1, none :: _, _ => rfl
  | fuel + 1, some pos :: rest, s => by
    rw [playLoop_cons_some]
    by_cases h : (check_win (setCell s.board pos s.current)).1
    · rw [if_pos h]
    · rw [if_neg h]
      exact playLoop_over fuel rest _

/-- C6 counterexample: the scripted sequence X:1 O:2 X:3 O:4 X:5 O:6 X:7 does
complete a winning line — X holds the diagonal 3, 5, 7 after its fourth move —
so the session ends `Won` by X, not in the claimed terminal state `Draw`. -/
theorem scripted_game_not_draw :
    (play 0 [1, 2]
      [some 1, some 2, some 3, some 4, some 5, some 6, some 7, some 8, some 9]).draw
        = false ∧
    (play 0 [1, 2]
      [some 1, some 2, some 3, some 4, some 5, some 6, some 7, some 8, some 9]).winner
        = some Mark.X := by
  decide

/-- C6 (amended): from the empty board, the move sequence X:1 O:2 X:3 O:4 X:5
O:6 X:7 O:8 X:9 completes the winning diagonal (3, 5, 7) at X's fourth move
(the seventh scripted move), so the session reaches terminal state `Won` by X
with O the loser; the moves O:8 and X:9 are never played, and the state is
not `Draw`. -/
theorem scripted_game_won_by_X :
    (play 0 [1, 2]
        [some 1, some 2, some 3, some 4, some 5, some 6, some 7, some 8, some 9]) =
      { board :=
          (play 0 [1, 2]
            [some 1, some 2, some 3, some 4, some 5, some 6, some 7, some 8, some 9]).board
        channel := 0
        players := [1, 2]
        current := Mark.X
        next := Mark.O
        winner := some Mark.X
        loser := some Mark.O
        draw := false
        over := true
        canceled := false } ∧
    (check_win (play 0 [1, 2]
        [some 1, some 2, some 3, some 4, some 5, some 6, some 7, some 8, some 9]).board).2 =
      some (3, 5, 7) ∧
    (play 0 [1, 2]
        [some 1, some 2, some 3, some 4, some 5, some 6, some 7, some 8, some 9]).board 8 =
      Mark.Empty := by
  exact ⟨by rfl, by decide, by decide⟩

/-! ## The registry checks and the command (`TicTacToe` cog) -/

/-- `is_channel_free`: `all(game.channel != ctx.channel for game in
ctx.cog.games if not game.over)`. -/
def is_channel_free (games : List GameState) (ch : Nat) : Bool :=
  (games.filter (fun g => !g.over)).all (fun g => decide (g.channel ≠ ch))

/-- `is_requester_free`: `all(ctx.author not in (player.user for player in
game.players) for game in ctx.cog.games if not game.over)`. -/
def is_requester_free (games : List GameState) (uid : Nat) : Bool :=
  (games.filter (fun g => !g.over)).all (fun g => decide (¬uid ∈ g.players))

theorem is_channel_free_iff (games : List GameState) (ch : Nat) :
    is_channel_free games ch = true ↔ ∀ g ∈ games, g.over = false → g.channel ≠ ch := by
  unfold is_channel_free
  rw [List.all_eq_true]
  constructor
  · intro h g hg hov
    have hmem : g ∈ games.filter (fun g => !g.over) :=
      List.mem_filter.mpr ⟨hg, by simp [hov]⟩
    simpa using h g hmem
  · intro h g hg
    obtain ⟨hmem, hov⟩ := List.mem_filter.mp hg
    simp only [Bool.not_eq_true'] at hov
    simpa using h g hmem hov

/-- C7: `is_channel_free` is true iff no non-terminal game is bound to the
channel; in particular a registry holding a non-terminal game bound to the
channel reports it busy, and once a session reaches the terminal status `Won`
through the `Game.play` loop (winner set, `over` true) a registry holding
only that session reports the channel free. -/
theorem is_channel_free_correct (games : List GameState) (ch : Nat) :
    (is_channel_free games ch = true ↔ ∀ g ∈ games, g.over = false → g.channel ≠ ch) ∧
    (∀ g ∈ games, g.over = false → g.channel = ch → is_channel_free games ch = false) ∧
    (∀ fuel moves s, (playLoop fuel moves s).winner.isSome = true →
      is_channel_free [playLoop fuel moves s] ch = true) := by
  refine ⟨is_channel_free_iff games ch, ?_, ?_⟩
  · intro g hg hov hch
    cases hfree : is_channel_free games ch
    · rfl
    · exact absurd hch ((is_channel_free_iff games ch).mp hfree g hg hov)
  · intro fuel moves s _
    have hov : (playLoop fuel moves s).over = true := playLoop_over fuel moves s
    simp [is_channel_free, hov]

/-- Witness for C7: one non-terminal game bound to channel 5 makes the channel
busy; the same session after `Game.play` ends in `Won` leaves it free. -/
theorem is_channel_free_correct_witness :
    is_channel_free [initGame 5 [1, 2]] 5 = false ∧
    is_channel_free
      [playLoop 9 [some 1, some 2, some 3, some 4, some 5, some 6, some 7]
        (initGame 5 [1, 2])] 5 = true :=
  ⟨(is_channel_free_correct [initGame 5 [1, 2]] 5).2.1 (initGame 5 [1, 2])
      (List.mem_singleton.mpr rfl) rfl rfl,
    (is_channel_free_correct ([] : List GameState) 5).2.2 9
      [some 1, some 2, some 3, some 4, some 5, some 6, some 7]
      (initGame 5 [1, 2]) (by decide)⟩

/-- An opponent passed to the `tictactoe` command: a user id and the
`user.bot` flag. -/
structure Opp where
  oid : Nat
  isBot : Bool
deriving DecidableEq, Repr

/-- Where the `tic_tac_toe` command returns: rejection of a self-match, of a
busy opponent, of a bot opponent (after the game was appended), or fall
through to confirmation/play. -/
inductive CmdOutcome where
  | selfOpponent
  | opponentBusy
  | botOpponent
  | proceed
deriving DecidableEq, Repr

/-- The body of the `tic_tac_toe` command up to its return or to the
confirmation/play phase: reject playing oneself, reject a busy opponent,
create the `Game`, append it to `self.games`, and only then reject a bot
opponent — leaving the appended game in the registry with `over = False`. -/
def tic_tac_toe (games : List GameState) (authorId meId ch : Nat) :
    Option Opp → List GameState × CmdOutcome
  | some opp =>
    if opp.oid = authorId then (games, .selfOpponent)
    else if (games.filter (fun g => !g.over)).all (fun g => decide (¬opp.oid ∈ g.players))
        = false then
      (games, .opponentBusy)
    else
      let game := initGame ch [authorId, opp.oid]
      if opp.isBot then (games ++ [game], .botOpponent)
      else (games ++ [game], .proceed)
  | none => (games ++ [initGame ch [authorId, meId]], .proceed)

/-- C8: a game against a bot opponent is appended to the registry before the
request is rejected; the command returns without ever starting the session,
so the appended game keeps `over = false` and both the channel and the
requester are reported busy by `is_channel_free` / `is_requester_free` from
then on. -/
theorem bot_opponent_registry_leak (games : List GameState) (authorId meId ch : Nat)
    (opp : Opp) (hbot : opp.isBot = true) (hself : opp.oid ≠ authorId)
    (hfree : (games.filter (fun g => !g.over)).all (fun g => decide (¬opp.oid ∈ g.players))
      = true) :
    tic_tac_toe games authorId meId ch (some opp) =
      (games ++ [initGame ch [authorId, opp.oid]], CmdOutcome.botOpponent) ∧
    (initGame ch [authorId, opp.oid]).over = false ∧
    is_channel_free (games ++ [initGame ch [authorId, opp.oid]]) ch = false ∧
    is_requester_free (games ++ [initGame ch [authorId, opp.oid]]) authorId = false := by
  refine ⟨?_, rfl, ?_, ?_⟩
  · simp only [tic_tac_toe]
    rw [if_neg hself, if_neg (by rw [hfree]; simp), if_pos hbot]
  · simp [is_channel_free, List.filter_append, initGame]
  · simp [is_requester_free, List.filter_append, initGame]

/-- Witness for C8 on an empty registry: requester 1, bot opponent 2, channel 3. -/
theorem bot_opponent_registry_leak_witness :
    tic_tac_toe [] 1 9 3 (some ⟨2, true⟩) =
      ([initGame 3 [1, 2]], CmdOutcome.botOpponent) ∧
    (initGame 3 [1, 2]).over = false ∧
    is_channel_free [initGame 3 [1, 2]] 3 = false ∧
    is_requester_free [initGame 3 [1, 2]] 1 = false := by
  have h := bot_opponent_registry_leak [] 1 9 3 ⟨2, true⟩ rfl (by decide) (by decide)
  simpa using h

/-! ## History lookup (`show_tic_tac_toe_board`) -/

/-- Result of the `show` subcommand: the explicit "Game don't exist." reply,
an uncaught Python `IndexError`, or the displayed game. -/
inductive ShowResult where
  | notFound
  | indexError
  | found (g : GameState)

/-- Python list indexing `games[i]`: non-negative indexes count from the
front, negative indexes from the back, and anything out of range raises
`IndexError` (`none`). -/
def pyGet (games : List GameState) (i : Int) : Option GameState :=
  if 0 ≤ i then games.get? i.toNat
  else if (-i).toNat ≤ games.length then games.get? (games.length - (-i).toNat)
  else none

/-- `show_tic_tac_toe_board`: replies "Game don't exist." only when
`len(self.games) < game_id`, then evaluates `self.games[game_id - 1]`. -/
def show_tic_tac_toe_board (games : List GameState) (game_id : Int) : ShowResult :=
  if (games.length : Int) < game_id then .notFound
  else
    match pyGet games (game_id - 1) with
    | some g => .found g
    | none => .indexError

/-- C9 counterexample: with one game in the history, `game_id = -1` passes the
`NotFound` guard and evaluates `games[-2]`, which raises `IndexError` instead
of returning an existing session. -/
theorem show_board_negative_counterexample :
    show_tic_tac_toe_board [initGame 0 [1, 2]] (-1) = ShowResult.indexError ∧
    show_tic_tac_toe_board [initGame 0 [1, 2]] (-1) ≠
      ShowResult.found (initGame 0 [1, 2]) := by
  have h1 : show_tic_tac_toe_board [initGame 0 [1, 2]] (-1) = ShowResult.indexError := rfl
  refine ⟨h1, ?_⟩
  rw [h1]
  simp

/-- C9 (amended): the "Game don't exist." reply fires only for `game_id`
strictly greater than the history length. For `game_id ≤ 0` on a non-empty
history the lookup never replies `NotFound`: when `1 - len ≤ game_id`,
Python's negative indexing returns the existing session at position
`len - 1 - (-game_id)` (`game_id = 0` the most recently created session,
`-1` the one before it, and so on), while for `game_id < 1 - len` the index
is out of range and the command fails with an uncaught `IndexError` instead
of returning a session. -/
theorem show_board_negative_indexing (games : List GameState) (game_id : Int)
    (hne : games ≠ []) (hle : game_id ≤ 0) :
    show_tic_tac_toe_board games game_id ≠ ShowResult.notFound ∧
    (1 - (games.length : Int) ≤ game_id →
      ∃ h : games.length - 1 - (-game_id).toNat < games.length,
        show_tic_tac_toe_board games game_id =
          ShowResult.found (games.get ⟨games.length - 1 - (-game_id).toNat, h⟩)) ∧
    (game_id < 1 - (games.length : Int) →
      show_tic_tac_toe_board games game_id = ShowResult.indexError) := by
  have hlen : 0 < games.length := List.length_pos.mpr hne
  have hguard : ¬((games.length : Int) < game_id) := by omega
  by_cases hcase : 1 - (games.length : Int) ≤ game_id
  · have hcond : (-(game_id - 1)).toNat ≤ games.length := by omega
    have hidx : games.length - (-(game_id - 1)).toNat
        = games.length - 1 - (-game_id).toNat := by omega
    have hlt : games.length - 1 - (-game_id).toNat < games.length := by omega
    have hp : pyGet games (game_id - 1) =
        some (games.get ⟨games.length - 1 - (-game_id).toNat, hlt⟩) := by
      unfold pyGet
      rw [if_neg (by omega), if_pos hcond, hidx]
      exact List.get?_eq_get hlt
    refine ⟨?_, fun _ => ⟨hlt, ?_⟩, fun hB => absurd hB (by omega)⟩
    · unfold show_tic_tac_toe_board
      rw [if_neg hguard, hp]
      simp
    · unfold show_tic_tac_toe_board
      rw [if_neg hguard, hp]
  · have hcond : ¬(-(game_id - 1)).toNat ≤ games.length := by omega
    have hp : pyGet games (game_id - 1) = none := by
      unfold pyGet
      rw [if_neg (by omega), if_neg hcond]
    refine ⟨?_, fun hA => absurd hA hcase, fun _ => ?_⟩
    · unfold show_tic_tac_toe_board
      rw [if_neg hguard, hp]
      simp
    · unfold show_tic_tac_toe_board
      rw [if_neg hguard, hp]

/-- Witness for the amended C9: with two games in the history, `game_id = 0`
returns the most recently created session. -/
theorem show_board_negative_indexing_witness :
    ∃ h : ([initGame 0 [1, 2], initGame 1 [3, 4]] : List GameState).length - 1
        - (-(0 : Int)).toNat
        < ([initGame 0 [1, 2], initGame 1 [3, 4]] : List GameState).length,
      show_tic_tac_toe_board [initGame 0 [1, 2], initGame 1 [3, 4]] 0 =
        ShowResult.found (([initGame 0 [1, 2], initGame 1 [3, 4]] : List GameState).get
          ⟨([initGame 0 [1, 2], initGame 1 [3, 4]] : List GameState).length - 1
            - (-(0 : Int)).toNat, h⟩) :=
  (show_board_negative_indexing [initGame 0 [1, 2], initGame 1 [3, 4]] 0
    (by simp) (by decide)).2.1 (by decide)

example :
    show_tic_tac_toe_board [initGame 0 [1, 2], initGame 1 [3, 4]] 0 =
      ShowResult.found (initGame 1 [3, 4]) := rfl

/-- Spec §8 example: index 5 on a 3-entry history is rejected. -/
example :
    show_tic_tac_toe_board [initGame 0 [1, 2], initGame 0 [3, 4], initGame 0 [5, 6]] 5 =
      ShowResult.notFound := rfl

/-! ## The spec-level `Board.apply` -/

/-- Result of the spec's `Board.apply`: `InvalidMove` or the updated board. -/
inductive ApplyResult where
  | invalidMove
  | ok (b : Board)

/-- Modelled from the spec: the engine-level `apply(position, mark)` of §4.1
is not present in the source — `Game.play` writes `self.board[pos] = symbol`
unconditionally, and occupied cells are kept out upstream (used buttons are
disabled, and the AI only picks from `possible_moves`). Per the spec's words
it "fails with `InvalidMove` if position already occupied or out of range
[1,9]; otherwise sets the cell and returns success. No other side effects." -/
def Board.apply (board : Board) (pos : Nat) (m : Mark) : ApplyResult :=
  if pos < 1 ∨ 9 < pos then .invalidMove
  else if board pos ≠ Mark.Empty then .invalidMove
  else .ok (setCell board pos m)

/-- C2: `apply` on an already-occupied or out-of-range position fails with
`InvalidMove` and mutates nothing; a success can only start from an empty
in-range cell, writes exactly that cell, and never overwrites a prior mark. -/
theorem board_apply_rejects_invalid (board : Board) (pos : Nat) (m : Mark) :
    ((board pos ≠ Mark.Empty ∨ pos < 1 ∨ 9 < pos) →
      Board.apply board pos m = ApplyResult.invalidMove) ∧
    (∀ b2, Board.apply board pos m = ApplyResult.ok b2 →
      board pos = Mark.Empty ∧ 1 ≤ pos ∧ pos ≤ 9 ∧ b2 pos = m ∧
        ∀ q, q ≠ pos → b2 q = board q) := by
  unfold Board.apply
  constructor
  · intro h
    rcases h with hocc | hr
    · by_cases hrange : pos < 1 ∨ 9 < pos
      · rw [if_pos hrange]
      · rw [if_neg hrange, if_pos hocc]
    · rw [if_pos hr]
  · intro b2 hb2
    by_cases hrange : pos < 1 ∨ 9 < pos
    · rw [if_pos hrange] at hb2
      cases hb2
    · rw [if_neg hrange] at hb2
      by_cases hocc : board pos ≠ Mark.Empty
      · rw [if_pos hocc] at hb2
        cases hb2
      · rw [if_neg hocc] at hb2
        cases hb2
        push_neg at hrange
        refine ⟨not_ne_iff.mp hocc, hrange.1, by omega, setCell_same board pos m, ?_⟩
        intro q hq
        exact setCell_other board pos m q hq

/-- Witness for C2: applying a move to the occupied cell 5 of an all-X board
fails with `InvalidMove`. -/
theorem board_apply_rejects_invalid_witness :
    Board.apply (fun _ => Mark.X) 5 Mark.O = ApplyResult.invalidMove :=
  (board_apply_rejects_invalid (fun _ => Mark.X) 5 Mark.O).1 (Or.inl (by decide))
